import Mathlib

/-!
Verification development for `EuiDataGridHeaderCell`
(src/src/components/datagrid/data_grid_header_cell.tsx).

The component is a React function component; its behaviour is embedded
shallowly:

* a descendant DOM element of the header cell is an `Elem` carrying the
  attributes the component reads and writes (`tabIndex`, the
  `data-euigrid-tab-managed` marker) plus whether the element is
  intrinsically keyboard-focusable;
* the `tabbable` library call `tabbable(root)` becomes a filter for
  focusable elements whose current tab order is non-negative;
* the two `useEffect` bodies and the event handlers become explicit state
  transformers on a `CellState`;
* `requestAnimationFrame` callbacks become functions over
  `Option MountedCell` (`none` models the cell having unmounted, i.e.
  `headerRef.current === null`).
-/

/-- A descendant element inside the header cell's subtree.
`focusable` is the element's intrinsic keyboard-focusability (a button,
link, input, ...), independent of the `tabIndex` attribute the component
rewrites; `tabIndex` is the element's current effective tab order;
`tabManaged` records presence of the `data-euigrid-tab-managed`
attribute. -/
structure Elem where
  focusable : Bool
  tabIndex : Int
  tabManaged : Bool
deriving DecidableEq, Repr

/-- Membership in `tabbable(root)`: the `tabbable` library returns the
focusable descendants whose tab order is non-negative. -/
def Elem.isTabbable (e : Elem) : Bool :=
  e.focusable && decide (0 ≤ e.tabIndex)

/-- Number of descendants `tabbable(root)` returns. -/
def tabbableDescCount (es : List Elem) : Nat :=
  (es.filter Elem.isTabbable).length

/-- Per-element action of `enableInteractives`: every element matched by
`querySelectorAll('[data-euigrid-tab-managed]')` gets
`setAttribute('tabIndex', '0')`. -/
def enableElem (e : Elem) : Elem :=
  if e.tabManaged then { e with tabIndex := 0 } else e

/-- The `enableInteractives()` helper from the `[isCellEntered]` effect. -/
def enableInteractives (es : List Elem) : List Elem :=
  es.map enableElem

/-- Per-element action of `disableInteractives`: every element in
`tabbable(root)` gets `data-euigrid-tab-managed="true"` and
`tabIndex="-1"`. -/
def disableElem (e : Elem) : Elem :=
  if e.isTabbable then { e with tabManaged := true, tabIndex := -1 } else e

/-- The `disableInteractives()` helper from the `[isCellEntered]` effect. The second
component records whether the `console.warn` diagnostic fired (the scan
found more than one tabbable element); the warning is non-fatal, the
function still rewrites every tabbable element's attributes. -/
def disableInteractives (es : List Elem) : List Elem × Bool :=
  (es.map disableElem, decide (1 < tabbableDescCount es))

/-- Which DOM node currently holds literal input focus, relative to one
header cell: its container `<div role="columnheader">`, one of its
descendants (by position in the descendant list), or a node outside the
cell's subtree. -/
inductive FocusTarget where
  | container
  | descendant (i : Nat)
  | outside
deriving DecidableEq, Repr

/-- Mutable view of one mounted header cell: its descendant elements and
DOM focus. `isCellEntered` is the component's `useState` flag (CONTENT
mode when `true`, CELL mode when `false`, initialized to `false`). -/
structure CellState where
  elems : List Elem
  isCellEntered : Bool
  domFocus : FocusTarget
deriving DecidableEq, Repr

/-- Number of elements matched by
`querySelectorAll('[data-euigrid-tab-managed]')` in the `isFocused`
effect. -/
def interactivesCount (es : List Elem) : Nat :=
  (es.filter Elem.tabManaged).length

/-- The `useEffect(..., [isCellEntered])` body: when entered, enable
interactives and focus the first tabbable descendant if any; otherwise
disable interactives. React also runs this on mount (with the initial
`isCellEntered = false`). -/
def runEnteredEffect (s : CellState) : CellState :=
  if s.isCellEntered then
    let es := enableInteractives s.elems
    match es.findIdx? Elem.isTabbable with
    | some i => { s with elems := es, domFocus := FocusTarget.descendant i }
    | none => { s with elems := es }
  else
    { s with elems := (disableInteractives s.elems).1 }

/-- The `isFocused` branch of the second `useEffect`: when the cell is
the grid's logical focus target, enter CONTENT mode iff exactly one
tab-managed descendant exists, else focus the container; when the target
is elsewhere, reset to CELL mode. -/
def runFocusEffect (isFocused : Bool) (s : CellState) : CellState :=
  if isFocused then
    if interactivesCount s.elems = 1 then { s with isCellEntered := true }
    else { s with domFocus := FocusTarget.container }
  else
    { s with isCellEntered := false }

/-- One React update in response to a change of the logical focus
target: the `isFocused` effect runs, and if it changed `isCellEntered`
the `[isCellEntered]` effect runs on the re-render. -/
def observeFocus (isFocused : Bool) (s : CellState) : CellState :=
  let s1 := runFocusEffect isFocused s
  if s1.isCellEntered = s.isCellEntered then s1 else runEnteredEffect s1

/-- The F2 case of `onKeyUp`, together with the `[isCellEntered]` effect
the state change triggers: with DOM focus on the container, enter the
cell's interactives; otherwise leave CONTENT mode and focus the
container. -/
def pressF2 (s : CellState) : CellState :=
  let s1 :=
    if s.domFocus = FocusTarget.container then
      { s with isCellEntered := true }
    else
      { s with isCellEntered := false, domFocus := FocusTarget.container }
  if s1.isCellEntered = s.isCellEntered then s1 else runEnteredEffect s1

/-- The rendered container's `tabIndex={isFocused ? 0 : -1}`. -/
def containerTabIndex (isFocused : Bool) : Int :=
  if isFocused then 0 else -1

/-- Number of elements of the cell's rendered subtree (container plus
descendants) that are sequentially tabbable, i.e. keyboard-focusable
with tab order `>= 0`. -/
def reachableCount (isFocused : Bool) (es : List Elem) : Nat :=
  (if 0 ≤ containerTabIndex isFocused then 1 else 0) + tabbableDescCount es

/-- One entry of the grid's `sorting.columns` sequence. The component
compares `direction` against the string literals `'asc'` and `'desc'`
and otherwise falls back, so the direction is embedded as a string. -/
structure SortColumn where
  id : String
  direction : String
deriving DecidableEq, Repr

/-- The grid's `sorting` prop (when present). -/
structure Sorting where
  columns : List SortColumn
deriving DecidableEq, Repr

/-- The `ariaProps` computation: for a column id `cid` returns the
`aria-sort` and `aria-describedby` attribute values placed on the
container. `genId` stands for the value produced by
`htmlIdGenerator()()` in the describedby branch. -/
def ariaPropsOf (sorting : Option Sorting) (cid : String) (genId : String) :
    Option String × Option String :=
  match sorting with
  | none => (none, none)
  | some s =>
    let hasId := (s.columns.map SortColumn.id).contains cid
    if s.columns.length = 1 ∧ hasId = true then
      let sortDirection :=
        match s.columns with
        | col :: _ => col.direction
        | [] => ""
      let sortValue :=
        if sortDirection = "asc" then "ascending"
        else if sortDirection = "desc" then "descending"
        else "other"
      (some sortValue, none)
    else if 2 ≤ s.columns.length ∧ hasId = true then
      (none, some genId)
    else
      (none, none)

/-- The `sortString` computation:
`sorting.columns.map(col => "Sorted by " + col.id + " " + col.direction).join(" then ")`. -/
def sortStringOf (cols : List SortColumn) : String :=
  String.intercalate " then "
    (cols.map (fun col => "Sorted by " ++ col.id ++ " " ++ col.direction))

/-- The visually-hidden node the JSX renders inside `EuiScreenReaderOnly`:
its `id` attribute and its text. -/
structure HiddenSortNode where
  nodeId : Option String
  text : String
deriving DecidableEq, Repr

/-- The conditional render
`sorting && sorting.columns.length >= 2 && <EuiScreenReaderOnly><div id={screenReaderId}>{sortString}</div></...>`.
When this column is not among the sorted ids the guard still passes, but
`screenReaderId` and `sortString` were never assigned, so the node
renders with no id and empty text. -/
def renderHiddenSort (sorting : Option Sorting) (cid : String) (genId : String) :
    Option HiddenSortNode :=
  match sorting with
  | none => none
  | some s =>
    if 2 ≤ s.columns.length then
      if (s.columns.map SortColumn.id).contains cid then
        some { nodeId := some genId, text := sortStringOf s.columns }
      else
        some { nodeId := none, text := "" }
    else
      none

/-- What the `onFocusIn` handler does synchronously for one `focusin`
event: whether it scheduled the deferred blur
(`requestAnimationFrame(() => headerRef.current!.blur())`), and the
argument of the `setFocusedCell` call if it made one. -/
structure FocusInResult where
  deferredBlurScheduled : Bool
  focusRequest : Option (Int × Int)
deriving DecidableEq, Repr

/-- The `onFocusIn` event handler. -/
def onFocusIn (headerIsInteractive : Bool) (index : Int) : FocusInResult :=
  if headerIsInteractive = false then
    { deferredBlurScheduled := true, focusRequest := none }
  else
    { deferredBlurScheduled := false, focusRequest := some (index, -1) }

/-- A still-mounted header cell as seen by a deferred callback:
`headerRef.current` together with where `document.activeElement` sits
relative to the cell's subtree. -/
structure MountedCell where
  elems : List Elem
  activeElement : FocusTarget
deriving DecidableEq, Repr

/-- The check `headerRef.current.contains(document.activeElement)`: the container
contains itself and its descendants. -/
def MountedCell.containsActive (c : MountedCell) : Bool :=
  match c.activeElement with
  | FocusTarget.outside => false
  | _ => true

/-- The call `headerRef.current.blur()`: removes DOM focus from the container if
it holds it; blurring a node that is not the active element is a
no-op. -/
def blurContainer (c : MountedCell) : MountedCell :=
  if c.activeElement = FocusTarget.container then
    { c with activeElement := FocusTarget.outside }
  else c

/-- The deferred callback `onFocusIn` schedules:
`() => headerRef.current!.blur()`. The `!` non-null assertion erases to
a plain dereference, so when the callback fires after unmount
(`headerRef.current === null`, embedded as `none`) it faults instead of
completing; the fault is the `none` result. -/
def deferredBlur (ref : Option MountedCell) : Option MountedCell :=
  match ref with
  | some c => some (blurContainer c)
  | none => none

/-- The deferred callback `onFocusOut` schedules. It re-checks
`if (headerRef.current)` before touching the DOM, so it is total: it
returns the (possibly updated) `isCellEntered` flag, leaving it
unchanged when the cell has unmounted. -/
def deferredFocusOutCheck (ref : Option MountedCell) (isCellEntered : Bool) : Bool :=
  match ref with
  | some c => if c.containsActive = false then false else isCellEntered
  | none => isCellEntered

theorem isTabbable_disableElem (e : Elem) : (disableElem e).isTabbable = false := by
  unfold disableElem
  split
  · simp [Elem.isTabbable]
  · next h => simpa using h

theorem disableElem_of_not_tabbable (e : Elem) (h : e.isTabbable = false) :
    disableElem e = e := by
  simp [disableElem, h]

theorem tabbableDescCount_disable (es : List Elem) :
    tabbableDescCount ((disableInteractives es).1) = 0 := by
  simp [tabbableDescCount, disableInteractives, List.filter_map, isTabbable_disableElem]

theorem disableElem_idem (e : Elem) : disableElem (disableElem e) = disableElem e :=
  disableElem_of_not_tabbable _ (isTabbable_disableElem e)

theorem enableElem_idem (e : Elem) : enableElem (enableElem e) = enableElem e := by
  by_cases h : e.tabManaged = true <;> simp [enableElem, h]

theorem focusable_enableElem (e : Elem) : (enableElem e).focusable = e.focusable := by
  by_cases h : e.tabManaged = true <;> simp [enableElem, h]

theorem focusable_disableElem (e : Elem) : (disableElem e).focusable = e.focusable := by
  by_cases h : e.isTabbable = true <;> simp [disableElem, h]

theorem tabManaged_enableElem (e : Elem) : (enableElem e).tabManaged = e.tabManaged := by
  by_cases h : e.tabManaged = true <;> simp [enableElem, h]

theorem tabManaged_disableElem_mono (e : Elem) (h : e.tabManaged = true) :
    (disableElem e).tabManaged = true := by
  by_cases hb : e.isTabbable = true <;> simp [disableElem, hb, h]

theorem enable_idem (es : List Elem) :
    enableInteractives (enableInteractives es) = enableInteractives es := by
  induction es with
  | nil => rfl
  | cons a t _ => simp [enableInteractives, enableElem_idem]

theorem disable_idem (es : List Elem) :
    (disableInteractives ((disableInteractives es).1)).1 = (disableInteractives es).1 := by
  induction es with
  | nil => rfl
  | cons a t _ => simp [disableInteractives, disableElem_idem]

theorem enable_focusable (es : List Elem) :
    (enableInteractives es).map Elem.focusable = es.map Elem.focusable := by
  induction es with
  | nil => rfl
  | cons a t _ => simp [enableInteractives, focusable_enableElem]

theorem disable_focusable (es : List Elem) :
    ((disableInteractives es).1).map Elem.focusable = es.map Elem.focusable := by
  induction es with
  | nil => rfl
  | cons a t _ => simp [disableInteractives, focusable_disableElem]

theorem interactivesCount_enable (es : List Elem) :
    interactivesCount (enableInteractives es) = interactivesCount es := by
  induction es with
  | nil => rfl
  | cons a t ih =>
    by_cases h : a.tabManaged = true <;>
      simp [interactivesCount, enableInteractives, List.filter_cons,
        tabManaged_enableElem, h] at * <;> omega

theorem enable_tabManaged (es : List Elem) :
    (enableInteractives es).map Elem.tabManaged = es.map Elem.tabManaged := by
  induction es with
  | nil => rfl
  | cons a t _ => simp [enableInteractives, tabManaged_enableElem]

theorem disable_tabManaged_mono (es : List Elem) :
    ∀ p ∈ es.zip ((disableInteractives es).1),
      p.1.tabManaged = true → p.2.tabManaged = true := by
  induction es with
  | nil => intro p hp; simp [disableInteractives] at hp
  | cons a t ih =>
    intro p hp hm
    simp only [disableInteractives, List.map_cons, List.zip_cons_cons, List.mem_cons] at hp
    rcases hp with h | h
    · subst h; exact tabManaged_disableElem_mono a hm
    · exact ih p (by simpa [disableInteractives] using h) hm

theorem disableElem_of_tabbable (e : Elem) (h : e.isTabbable = true) :
    disableElem e = { e with tabManaged := true, tabIndex := -1 } := by
  simp [disableElem, h]

theorem isTabbable_enable_disableElem (e : Elem) (h : e.tabManaged = false) :
    (enableElem (disableElem e)).isTabbable = e.isTabbable := by
  by_cases tb : e.isTabbable = true
  · have hparts := tb
    simp only [Elem.isTabbable, Bool.and_eq_true, decide_eq_true_eq] at hparts
    rw [disableElem_of_tabbable e tb, tb]
    simp [enableElem, Elem.isTabbable, hparts.1]
  · have tb2 : e.isTabbable = false := by simpa using tb
    rw [disableElem_of_not_tabbable e tb2]
    simp [enableElem, h, tb2]

theorem tabbableDescCount_enable_disable (es : List Elem)
    (h : ∀ e ∈ es, e.tabManaged = false) :
    tabbableDescCount (enableInteractives ((disableInteractives es).1)) =
      tabbableDescCount es := by
  induction es with
  | nil => rfl
  | cons a t ih =>
    have ha : a.tabManaged = false := h a (List.mem_cons_self a t)
    have ht : ∀ e ∈ t, e.tabManaged = false := fun e he => h e (List.mem_cons_of_mem a he)
    by_cases tb : a.isTabbable = true <;>
      simp [tabbableDescCount, disableInteractives, enableInteractives, List.filter_cons,
        isTabbable_enable_disableElem a ha, tb] at * <;>
      simpa [tabbableDescCount, disableInteractives, enableInteractives] using ih ht

theorem disable_marks (es : List Elem) :
    ∀ p ∈ es.zip ((disableInteractives es).1),
      p.1.isTabbable = true → p.2.tabManaged = true ∧ p.2.tabIndex = -1 := by
  induction es with
  | nil => intro p hp; simp [disableInteractives] at hp
  | cons a t ih =>
    intro p hp ht
    simp only [disableInteractives, List.map_cons, List.zip_cons_cons, List.mem_cons] at hp
    rcases hp with h1 | h1
    · subst h1
      rw [disableElem_of_tabbable a ht]
      exact ⟨rfl, rfl⟩
    · exact ih p (by simpa [disableInteractives] using h1) ht

/-- Claim C1 counterexample: a freshly mounted cell with a single
interactive descendant, once it becomes the grid's logical focus target,
enters CONTENT mode and its subtree then holds TWO elements with
sequential tab order at least 0 (the container, rendered with
`tabIndex=0` because `isFocused`, and the enabled descendant), not
exactly one. -/
theorem claimC1_counterexample :
    reachableCount true
        ((observeFocus true
            (runEnteredEffect
              { elems := [{ focusable := true, tabIndex := 0, tabManaged := false }],
                isCellEntered := false,
                domFocus := FocusTarget.outside })).elems) = 2 ∧
    (2 : Nat) ≠ 1 := by
  constructor
  · decide
  · decide

/-- Claim C1 (amended): after the disable pass of the CELL-mode effect,
no descendant is sequentially tabbable, so the subtree has exactly one
reachable element (the container) when the cell is focused and zero when
it is not; entering CONTENT mode re-enables every managed descendant, so
a focused cell in CONTENT mode has one reachable element more than it
has tabbable descendants (container plus all of them). -/
theorem claimC1_amended :
    (∀ es : List Elem, tabbableDescCount ((disableInteractives es).1) = 0) ∧
    (∀ (isF : Bool) (es : List Elem),
      reachableCount isF ((disableInteractives es).1) = if isF then 1 else 0) ∧
    (∀ es : List Elem, (∀ e ∈ es, e.tabManaged = false) →
      reachableCount true (enableInteractives ((disableInteractives es).1)) =
        1 + tabbableDescCount es) := by
  refine ⟨tabbableDescCount_disable, ?_, ?_⟩
  · intro isF es
    cases isF <;> simp [reachableCount, containerTabIndex, tabbableDescCount_disable]
  · intro es h
    simp [reachableCount, containerTabIndex, tabbableDescCount_enable_disable es h]

/-- Witness for the amended claim C1 at a concrete cell. -/
theorem claimC1_amended_witness :
    (∀ e ∈ ([{ focusable := true, tabIndex := 0, tabManaged := false }] : List Elem),
      e.tabManaged = false) ∧
    reachableCount true
        (enableInteractives
          ((disableInteractives
            [{ focusable := true, tabIndex := 0, tabManaged := false }]).1)) =
      1 + tabbableDescCount [{ focusable := true, tabIndex := 0, tabManaged := false }] :=
  ⟨by decide, claimC1_amended.2.2 _ (by decide)⟩

/-- Claim C5: when the scan of a cell's subtree finds more than one
tabbable element, `disableInteractives` emits the (non-fatal)
`console.warn` diagnostic and still marks every tabbable descendant —
not just one — as tab-managed with tab order `-1`. -/
theorem claimC5 (es : List Elem) (h : 1 < tabbableDescCount es) :
    (disableInteractives es).2 = true ∧
    (∀ p ∈ es.zip ((disableInteractives es).1),
      p.1.isTabbable = true → p.2.tabManaged = true ∧ p.2.tabIndex = -1) ∧
    tabbableDescCount ((disableInteractives es).1) = 0 :=
  ⟨by simpa [disableInteractives] using h, disable_marks es, tabbableDescCount_disable es⟩

/-- Witness for claim C5 on a two-button subtree. -/
theorem claimC5_witness :
    1 < tabbableDescCount
        [{ focusable := true, tabIndex := 0, tabManaged := false },
         { focusable := true, tabIndex := 2, tabManaged := false }] ∧
    (disableInteractives
        [{ focusable := true, tabIndex := 0, tabManaged := false },
         { focusable := true, tabIndex := 2, tabManaged := false }]).2 = true :=
  ⟨by decide, (claimC5 _ (by decide)).1⟩

/-- Claim C8: both tab-reachability operations are idempotent on the
element attribute state, and neither touches anything but the `tabIndex`
and tab-managed attributes (intrinsic focusability is preserved). -/
theorem claimC8 (es : List Elem) :
    enableInteractives (enableInteractives es) = enableInteractives es ∧
    (disableInteractives ((disableInteractives es).1)).1 = (disableInteractives es).1 ∧
    (enableInteractives es).map Elem.focusable = es.map Elem.focusable ∧
    ((disableInteractives es).1).map Elem.focusable = es.map Elem.focusable :=
  ⟨enable_idem es, disable_idem es, enable_focusable es, disable_focusable es⟩

/-- Claim C10: the tab-managed marker is never removed once set —
`enableInteractives` restores tab order but keeps the marker,
`disableInteractives` never clears it — the CONTENT-entry effect counts
marked elements whether or not they are currently enabled, and on a
fresh subtree (no marker anywhere, i.e. before any disable pass) the
focus effect finds 0 interactives and focuses the container instead of
entering CONTENT mode. -/
theorem claimC10 :
    (∀ es : List Elem,
      (enableInteractives es).map Elem.tabManaged = es.map Elem.tabManaged) ∧
    (∀ es : List Elem, ∀ p ∈ es.zip ((disableInteractives es).1),
      p.1.tabManaged = true → p.2.tabManaged = true) ∧
    (∀ es : List Elem, interactivesCount (enableInteractives es) = interactivesCount es) ∧
    (∀ s : CellState, (∀ e ∈ s.elems, e.tabManaged = false) →
      runFocusEffect true s = { s with domFocus := FocusTarget.container }) := by
  refine ⟨enable_tabManaged, disable_tabManaged_mono, interactivesCount_enable, ?_⟩
  intro s h
  have hc : interactivesCount s.elems = 0 := by
    simp only [interactivesCount, List.length_eq_zero]
    rw [List.filter_eq_nil_iff]
    intro a ha
    simp [h a ha]
  simp [runFocusEffect, hc]

/-- Witness for claim C10: disabling keeps an existing marker, and the
focus effect on an unmarked subtree focuses the container. -/
theorem claimC10_witness :
    (({ focusable := true, tabIndex := -1, tabManaged := true } : Elem),
      ({ focusable := true, tabIndex := -1, tabManaged := true } : Elem)).2.tabManaged = true ∧
    runFocusEffect true
        { elems := [{ focusable := true, tabIndex := 0, tabManaged := false }],
          isCellEntered := false, domFocus := FocusTarget.outside } =
      { elems := [{ focusable := true, tabIndex := 0, tabManaged := false }],
        isCellEntered := false, domFocus := FocusTarget.container } :=
  ⟨claimC10.2.1 [{ focusable := true, tabIndex := -1, tabManaged := true }] _
      (by decide) (by decide),
    claimC10.2.2.2 _ (by decide)⟩

theorem enteredEffect_preserves_entered (s : CellState) :
    (runEnteredEffect s).isCellEntered = s.isCellEntered := by
  unfold runEnteredEffect
  split
  · cases hfi : List.findIdx? Elem.isTabbable (enableInteractives s.elems) <;> simp [hfi]
  · rfl

/-- Claim C2: when the logical focus target becomes this cell the mode
becomes CONTENT exactly when one tab-managed descendant exists; with any
other count the state is unchanged except DOM focus moving to the
container; when the target leaves, the mode resets to CELL. -/
theorem claimC2 (s : CellState) (h : s.isCellEntered = false) :
    ((observeFocus true s).isCellEntered = decide (interactivesCount s.elems = 1)) ∧
    (interactivesCount s.elems ≠ 1 →
      observeFocus true s = { s with domFocus := FocusTarget.container }) ∧
    (∀ s2 : CellState, (observeFocus false s2).isCellEntered = false) := by
  refine ⟨?_, ?_, ?_⟩
  · by_cases hc : interactivesCount s.elems = 1
    · simp [observeFocus, runFocusEffect, hc, h, enteredEffect_preserves_entered]
    · simp [observeFocus, runFocusEffect, hc, h]
  · intro hc
    simp [observeFocus, runFocusEffect, hc]
  · intro s2
    cases hs : s2.isCellEntered <;>
      simp [observeFocus, runFocusEffect, hs, enteredEffect_preserves_entered]

/-- Witness for claim C2 on a cell with no interactive descendants. -/
theorem claimC2_witness :
    (observeFocus true
        { elems := [], isCellEntered := false, domFocus := FocusTarget.outside }).isCellEntered =
      decide (interactivesCount ([] : List Elem) = 1) ∧
    observeFocus true { elems := [], isCellEntered := false, domFocus := FocusTarget.outside } =
      { elems := [], isCellEntered := false, domFocus := FocusTarget.container } :=
  ⟨(claimC2 _ rfl).1, (claimC2 _ rfl).2.1 (by decide)⟩

/-- Claim C3 evaluation: the deferred focus-loss check re-checks
`headerRef.current` and completes harmlessly after unmount, but the
deferred blur scheduled by `onFocusIn` dereferences the ref without any
guard and faults (`none`) when the cell has unmounted. -/
theorem claimC3_eval :
    deferredBlur none = none ∧
    (∀ b : Bool, deferredFocusOutCheck none b = b) ∧
    (∀ c : MountedCell, deferredBlur (some c) = some (blurContainer c)) :=
  ⟨rfl, fun _ => rfl, fun _ => rfl⟩

/-- Claim C4: a `focusin` on a non-interactive header schedules the
deferred blur and never calls `setFocusedCell`; the blur, fired while
the cell is still mounted, removes focus from the container; on an
interactive header the handler requests logical focus `(index, -1)`. -/
theorem claimC4 (index : Int) (c : MountedCell) :
    onFocusIn false index = { deferredBlurScheduled := true, focusRequest := none } ∧
    deferredBlur (some c) = some (blurContainer c) ∧
    blurContainer { c with activeElement := FocusTarget.container } =
      { c with activeElement := FocusTarget.outside } ∧
    onFocusIn true index =
      { deferredBlurScheduled := false, focusRequest := some (index, -1) } := by
  refine ⟨rfl, rfl, ?_, rfl⟩
  simp [blurContainer]

/-- Claim C9: with DOM focus on the container, F2 enters CONTENT mode
and moves focus to the first (post-enable) tabbable descendant; a second
F2 leaves CONTENT mode and returns focus to the container, restoring the
starting focus configuration. -/
theorem claimC9 (s : CellState) (i : Nat)
    (h1 : s.isCellEntered = false) (h2 : s.domFocus = FocusTarget.container)
    (h3 : (enableInteractives s.elems).findIdx? Elem.isTabbable = some i) :
    (pressF2 s).isCellEntered = true ∧
    (pressF2 s).domFocus = FocusTarget.descendant i ∧
    (pressF2 (pressF2 s)).isCellEntered = false ∧
    (pressF2 (pressF2 s)).domFocus = FocusTarget.container := by
  have hr1 : pressF2 s =
      { elems := enableInteractives s.elems, isCellEntered := true,
        domFocus := FocusTarget.descendant i } := by
    simp [pressF2, h1, h2, runEnteredEffect, h3]
  have e1 : (pressF2 s).isCellEntered = true := by rw [hr1]
  have e2 : (pressF2 s).domFocus = FocusTarget.descendant i := by rw [hr1]
  have e3 : (pressF2 (pressF2 s)).isCellEntered = false := by
    rw [hr1]; simp [pressF2, runEnteredEffect]
  have e4 : (pressF2 (pressF2 s)).domFocus = FocusTarget.container := by
    rw [hr1]; simp [pressF2, runEnteredEffect]
  exact ⟨e1, e2, e3, e4⟩

/-- Witness for claim C9 on a cell with one managed descendant. -/
theorem claimC9_witness :
    (pressF2 { elems := [{ focusable := true, tabIndex := -1, tabManaged := true }],
               isCellEntered := false,
               domFocus := FocusTarget.container }).isCellEntered = true ∧
    (pressF2 { elems := [{ focusable := true, tabIndex := -1, tabManaged := true }],
               isCellEntered := false,
               domFocus := FocusTarget.container }).domFocus =
      FocusTarget.descendant 0 ∧
    (pressF2 (pressF2 { elems := [{ focusable := true, tabIndex := -1, tabManaged := true }],
                        isCellEntered := false,
                        domFocus := FocusTarget.container })).isCellEntered = false ∧
    (pressF2 (pressF2 { elems := [{ focusable := true, tabIndex := -1, tabManaged := true }],
                        isCellEntered := false,
                        domFocus := FocusTarget.container })).domFocus =
      FocusTarget.container :=
  claimC9 _ 0 rfl rfl (by decide)

/-- Claim C6: with exactly one sort entry matching this column, the
container's `aria-sort` is `ascending` for direction `asc`, `descending`
for `desc`, and `other` for any other direction string; in every other
sorting configuration no `aria-sort` is exposed. -/
theorem claimC6 :
    (∀ cid d genId : String,
      (ariaPropsOf (some { columns := [{ id := cid, direction := d }] }) cid genId).1 =
        some (if d = "asc" then "ascending"
              else if d = "desc" then "descending" else "other")) ∧
    (∀ (s : Sorting) (cid genId : String),
      ¬(s.columns.length = 1 ∧ cid ∈ s.columns.map SortColumn.id) →
        (ariaPropsOf (some s) cid genId).1 = none) ∧
    (∀ cid genId : String, (ariaPropsOf none cid genId).1 = none) := by
  refine ⟨?_, ?_, ?_⟩
  · intro cid d genId
    simp [ariaPropsOf]
  · intro s cid genId h
    simp only [ariaPropsOf]
    split
    · next hcond => exact absurd ⟨hcond.1, by simpa using hcond.2⟩ h
    · split <;> rfl
  · intro cid genId
    rfl

/-- Witness for claim C6: the worked `aria-sort="ascending"` example and
a non-matching column exposing no `aria-sort`. -/
theorem claimC6_witness :
    (ariaPropsOf (some { columns := [{ id := "age", direction := "asc" }] }) "age" "g").1 =
      some "ascending" ∧
    (ariaPropsOf (some { columns := [{ id := "age", direction := "asc" }] }) "name" "g").1 =
      none :=
  ⟨(claimC6.1 "age" "asc" "g").trans (by decide),
    claimC6.2.1 { columns := [{ id := "age", direction := "asc" }] } "name" "g" (by decide)⟩

/-- Claim C7: with two or more sort entries including this column, the
cell exposes `aria-describedby` with the generated id, and the rendered
hidden node carries that id and the concatenation of
`Sorted by <id> <direction>` over all entries joined by `then`. -/
theorem claimC7 (s : Sorting) (cid genId : String)
    (h2 : 2 ≤ s.columns.length) (hm : cid ∈ s.columns.map SortColumn.id) :
    (ariaPropsOf (some s) cid genId).2 = some genId ∧
    renderHiddenSort (some s) cid genId =
      some { nodeId := some genId, text := sortStringOf s.columns } := by
  have hlen : s.columns.length ≠ 1 := by omega
  have hex : ∃ a ∈ s.columns, a.id = cid := by
    rcases List.mem_map.mp hm with ⟨a, ha, hae⟩
    exact ⟨a, ha, hae⟩
  constructor
  · simp [ariaPropsOf, hlen, h2, hex]
  · simp [renderHiddenSort, h2, hex]

/-- Witness for claim C7: the worked two-column example produces the
hidden text `Sorted by age asc then Sorted by name desc`. -/
theorem claimC7_witness :
    (ariaPropsOf
        (some { columns := [{ id := "age", direction := "asc" },
                            { id := "name", direction := "desc" }] }) "age" "sr1").2 =
      some "sr1" ∧
    renderHiddenSort
        (some { columns := [{ id := "age", direction := "asc" },
                            { id := "name", direction := "desc" }] }) "age" "sr1" =
      some { nodeId := some "sr1",
             text := "Sorted by age asc then Sorted by name desc" } := by
  have h := claimC7
    { columns := [{ id := "age", direction := "asc" },
                  { id := "name", direction := "desc" }] } "age" "sr1"
    (by decide) (by decide)
  exact ⟨h.1, h.2.trans (by decide)⟩
